import Mathlib

/-!
# Verification of the deepagents workspace core

Shallow embedding of the workspace-state reducers (`src/state.ts`), the
virtual-filesystem tools (`src/tools.ts`) and the sub-agent dispatch tool
(`src/subAgent.ts`, the object-argument `createTaskTool` that `graph.ts`
uses) of the `deepagentsjs` repository, together with proofs about them.

JavaScript objects used as string-keyed maps are embedded as association
lists `List (String × String)` (unique keys in actual use; all map claims
are stated through the access function `jsGet`).  JavaScript strings are
Lean `String`s; the string builtins the tools rely on (`trim`, `includes`,
`replace` with its `$`-substitution rules, global regex replacement of an
escaped literal pattern, `match(...).length` occurrence counting,
`padStart`, `substring`) are embedded as executable functions over
`List Char` below.
-/

namespace DeepAgents

/-- A file store: JS object mapping path strings to content strings. -/
abbrev Files := List (String × String)

/-- JS property access `obj[k]` on a string-keyed object: the value of the
first binding of `k`, if any. -/
def jsGet {α : Type} : List (String × α) → String → Option α
  | [], _ => none
  | kv :: rest, k => if kv.1 = k then some kv.2 else jsGet rest k

/-- JS object spread `{...a, ...b}`: the keys of `a` in order, values
overridden by `b` where `b` also binds the key, followed by the bindings of
`b` whose keys do not occur in `a`. -/
def spread (a b : Files) : Files :=
  a.map (fun kv => (kv.1, ((jsGet b kv.1).getD kv.2)))
    ++ b.filter (fun kv => (jsGet a kv.1).isNone)

/-- JS `obj[k] = v` on a copy of `obj`: replace the binding of `k` if
present (keeping its position), otherwise append `(k, v)`. -/
def setKey (f : Files) (p c : String) : Files :=
  if (jsGet f p).isNone then f ++ [(p, c)]
  else f.map (fun kv => (kv.1, if kv.1 = p then c else kv.2))

/-- `fileReducer` from `src/state.ts`: `left == null` returns
`right || {}`; `right == null` returns `left`; otherwise the object
spread `{...left, ...right}`.  `none` stands for `null`/`undefined`. -/
def fileReducer (left right : Option Files) : Files :=
  match left with
  | none => right.getD []
  | some l =>
    match right with
    | none => l
    | some r => spread l r

/-- Status enumeration of a todo item (`src/types.ts`). -/
inductive TodoStatus where
  | pending
  | inProgress
  | completed
deriving DecidableEq, Repr

/-- A todo item (`src/types.ts`). -/
structure Todo where
  content : String
  status : TodoStatus
deriving DecidableEq, Repr

/-- `todoReducer` from `src/state.ts`: a non-null `right` replaces the
whole list, otherwise `left || []`. -/
def todoReducer (left right : Option (List Todo)) : List Todo :=
  match right with
  | some r => r
  | none => left.getD []

/-- The whitespace set of JS `String.prototype.trim` (WhiteSpace and
LineTerminator code points). -/
def isJsWhitespace (c : Char) : Bool :=
  c.toNat = 9 || c.toNat = 10 || c.toNat = 11 || c.toNat = 12 ||
  c.toNat = 13 || c.toNat = 32 || c.toNat = 160 || c.toNat = 0x1680 ||
  (0x2000 ≤ c.toNat && c.toNat ≤ 0x200A) || c.toNat = 0x2028 ||
  c.toNat = 0x2029 || c.toNat = 0x202F || c.toNat = 0x205F ||
  c.toNat = 0x3000 || c.toNat = 0xFEFF

/-- JS `s.trim()`: strip leading and trailing whitespace. -/
def jsTrim (s : String) : String :=
  ⟨(((s.data.dropWhile isJsWhitespace).reverse.dropWhile
      isJsWhitespace).reverse)⟩

/-- JS `content.split("\n")` over the character list: the (possibly
empty) segments between newline characters; `[""]` for the empty string. -/
def splitNewlineChars : List Char → List (List Char)
  | [] => [[]]
  | c :: rest =>
    match splitNewlineChars rest with
    | [] => [[]]
    | hd :: tl => if c = '\n' then [] :: hd :: tl else (c :: hd) :: tl

/-- JS `content.split("\n")`. -/
def jsSplitLines (s : String) : List String :=
  (splitNewlineChars s.data).map (fun l => ⟨l⟩)

/-- JS `s.padStart(n)` (space padding, never truncates). -/
def padStart (s : String) (n : Nat) : String :=
  ⟨List.replicate (n - s.data.length) ' '⟩ ++ s

/-- The per-line truncation of `read_file` (`src/tools.ts`): a line longer
than 2000 characters is cut to its first 2000 characters
(`lineContent.substring(0, 2000)`). -/
def truncateLine (s : String) : String :=
  if s.data.length > 2000 then ⟨s.data.take 2000⟩ else s

/-- One rendered output line of `read_file`: the 1-based line number
(`i + 1` for 0-based index `i`) right-justified by `padStart(6)`, a tab,
then the truncated line content. -/
def renderLine (i : Nat) (line : String) : String :=
  padStart (toString (i + 1)) 6 ++ "\t" ++ truncateLine line

/-- The `for (let i = startIdx; i < endIdx; i++)` rendering loop of
`read_file`, collecting one rendered line per index. -/
def renderWindow (lines : List String) (startIdx endIdx : Nat) :
    List String :=
  (List.range' startIdx (endIdx - startIdx)).map
    (fun i => renderLine i (lines.getD i ""))

/-- `read_file` from `src/tools.ts` (pure function of the `files` map and
its arguments; `offset` defaults to 0, `limit` to 2000 at the schema
level).  Returns the tool's string result. -/
def readFile (files : Files) (file_path : String)
    (offset : Nat := 0) (limit : Nat := 2000) : String :=
  match jsGet files file_path with
  | none => "Error: File '" ++ file_path ++ "' not found"
  | some content =>
    if content = "" ∨ jsTrim content = "" then
      "System reminder: File exists but has empty contents"
    else
      let lines := jsSplitLines content
      let startIdx := offset
      let endIdx := min (startIdx + limit) lines.length
      if startIdx ≥ lines.length then
        "Error: Line offset " ++ toString offset ++
          " exceeds file length (" ++ toString lines.length ++ " lines)"
      else
        String.intercalate "\n" (renderWindow lines startIdx endIdx)

/-- Index of the leftmost occurrence of `pat` in a character list (the
match position of the regex built from the escaped literal `old`, and of
JS `includes`/string-pattern `replace`); the empty pattern matches at
position 0. -/
def findSub (pat : List Char) : List Char → Option Nat
  | [] => if pat = [] then some 0 else none
  | c :: rest =>
    if pat.isPrefixOf (c :: rest) then some 0
    else (findSub pat rest).map (· + 1)

/-- JS `content.includes(old)`. -/
def jsIncludes (s pat : String) : Bool :=
  (findSub pat.data s.data).isSome

/-- Leftmost non-overlapping occurrence count of a non-empty pattern. -/
def countOccsGo (pat : List Char) : List Char → Nat
  | [] => 0
  | c :: rest =>
    if pat.isPrefixOf (c :: rest) then
      countOccsGo pat (rest.drop (pat.length - 1)) + 1
    else
      countOccsGo pat rest
  termination_by l => l.length
  decreasing_by
    all_goals simp only [List.length_drop, List.length_cons]
    all_goals omega

/-- JS `(content.match(new RegExp(escapedOldString, "g")) || []).length`:
the number of leftmost non-overlapping occurrences of the literal
`old_string`; the escaped empty pattern matches at every position,
giving `length + 1`. -/
def countOccs (content old : String) : Nat :=
  if old.data = [] then content.data.length + 1
  else countOccsGo old.data content.data

/-- Replacement-text substitution of JS `String.prototype.replace`
(GetSubstitution) for a pattern without capture groups: `$$` is a literal
dollar, `$&` the matched substring, a dollar followed by a backquote the
part of the original string before the match, a dollar followed by a
single quote the part after it; every other `$` sequence (including
`$<...>` and digits, as the pattern has no capture groups) is kept
literally. -/
def getSubstitution (matched before after : List Char) :
    List Char → List Char
  | [] => []
  | c :: rest =>
    if c = '$' then
      match rest with
      | [] => [c]
      | d :: rest2 =>
        if d = '$' then c :: getSubstitution matched before after rest2
        else if d = '&' then
          matched ++ getSubstitution matched before after rest2
        else if d = Char.ofNat 96 then
          before ++ getSubstitution matched before after rest2
        else if d = Char.ofNat 39 then
          after ++ getSubstitution matched before after rest2
        else c :: getSubstitution matched before after (d :: rest2)
    else c :: getSubstitution matched before after rest

/-- JS `content.replace(old, new)` with a string pattern: replace the
leftmost occurrence of `old` (if any), applying `getSubstitution` to the
replacement text. -/
def jsReplace (content old repl : String) : String :=
  match findSub old.data content.data with
  | none => content
  | some i =>
    ⟨content.data.take i ++
      getSubstitution old.data (content.data.take i)
        (content.data.drop (i + old.data.length)) repl.data ++
      content.data.drop (i + old.data.length)⟩

/-- Global replacement loop for a non-empty literal pattern: scan left to
right, substitute at each non-overlapping match (tracking the position
for `getSubstitution`), and copy other characters. -/
def replAllGo (pat rep orig : List Char) : Nat → List Char → List Char
  | _, [] => []
  | pos, c :: rest =>
    if pat.isPrefixOf (c :: rest) then
      getSubstitution pat (orig.take pos) (orig.drop (pos + pat.length))
        rep ++
        replAllGo pat rep orig (pos + pat.length)
          (rest.drop (pat.length - 1))
    else
      c :: replAllGo pat rep orig (pos + 1) rest
  termination_by _ l => l.length
  decreasing_by
    all_goals simp only [List.length_drop, List.length_cons]
    all_goals omega

/-- Global replacement for the empty pattern, which matches at every
position (before every character and at the end of the string). -/
def replAllEmptyPat (rep orig : List Char) : Nat → List Char → List Char
  | pos, [] => getSubstitution [] (orig.take pos) (orig.drop pos) rep
  | pos, c :: rest =>
    getSubstitution [] (orig.take pos) (orig.drop pos) rep ++
      c :: replAllEmptyPat rep orig (pos + 1) rest

/-- JS `content.replace(new RegExp(escapedOldString, "g"), new)`: global
replacement of the literal `old` (leftmost, non-overlapping), applying
`getSubstitution` at every match. -/
def jsReplaceAll (content old repl : String) : String :=
  if old.data = [] then
    ⟨replAllEmptyPat repl.data content.data 0 content.data⟩
  else
    ⟨replAllGo old.data repl.data content.data 0 content.data⟩

/-- A chat message (the fields the claims touch). -/
structure Message where
  role : String
  content : String
  tool_call_id : String
deriving DecidableEq, Repr

/-- `new ToolMessage({content, tool_call_id})`. -/
def toolMessage (content callId : String) : Message :=
  ⟨"tool", content, callId⟩

/-- The `role: "user"` message the dispatcher builds from the task
description. -/
def userMessage (content : String) : Message :=
  ⟨"user", content, ""⟩

/-- A state delta carried by a returned `Command` (its `update:` object):
an absent field is `none` and leaves its channel to its reducer. -/
structure CommandUpdate where
  files : Option Files := none
  todos : Option (List Todo) := none
  messages : List Message := []
deriving DecidableEq, Repr

/-- What a tool call returns to the runtime: either a plain string result
(no state delta) or a `Command` carrying a state update. -/
inductive ToolResult where
  | msg : String → ToolResult
  | update : CommandUpdate → ToolResult
deriving DecidableEq, Repr

/-- `write_file` from `src/tools.ts`: copy the current `files` map, set
`files[file_path] = content`, and return a `Command` whose update carries
that whole map and one confirmation tool message. -/
def writeFile (files : Files) (file_path content callId : String) :
    ToolResult :=
  .update
    { files := some (setKey files file_path content),
      messages := [toolMessage ("Updated file " ++ file_path) callId] }

/-- `edit_file` from `src/tools.ts`.  A missing path or a missing
`old_string` returns a plain error string; without `replace_all`, an
occurrence count above 1 returns the ambiguity error (and a count of 0
the not-found error, unreachable after the `includes` check); otherwise
the replacement (global when `replace_all`, leftmost occurrence
otherwise) is written back into a copy of the map and returned as a
`Command` update with one confirmation tool message. -/
def editFile (files : Files)
    (file_path old_string new_string : String)
    (replace_all : Bool) (callId : String) : ToolResult :=
  match jsGet files file_path with
  | none => .msg ("Error: File '" ++ file_path ++ "' not found")
  | some content =>
    if jsIncludes content old_string = false then
      .msg ("Error: String not found in file: '" ++ old_string ++ "'")
    else if replace_all = false ∧ countOccs content old_string > 1 then
      .msg ("Error: String '" ++ old_string ++ "' appears " ++
        toString (countOccs content old_string) ++
        " times in file. Use replace_all=True to replace all instances, " ++
        "or provide a more specific string with surrounding context.")
    else if replace_all = false ∧ countOccs content old_string = 0 then
      .msg ("Error: String not found in file: '" ++ old_string ++ "'")
    else
      .update
        { files := some (setKey files file_path
            (if replace_all then jsReplaceAll content old_string new_string
             else jsReplace content old_string new_string)),
          messages := [toolMessage ("Updated file " ++ file_path) callId] }

/-- Parent/child agent state over the `DeepAgentState` schema
(`messages`, `todos`, `files`). -/
structure AgentState where
  messages : List Message
  todos : List Todo
  files : Files
deriving DecidableEq, Repr

/-- The final state an invoked sub-agent run produces: the contents of
its message history and its `files`/`todos` channels (possibly absent on
a custom schema). -/
structure ChildResult where
  messages : List String
  files : Option Files
  todos : Option (List Todo)

/-- A pre-created sub-agent (built by `createReactAgent` at registration
time), abstracted as its `invoke` function: it receives the modified
parent state and either returns a final state or throws — modelled as
`Except.error` carrying the thrown error's message text. -/
abbrev SubAgentFn := AgentState → Except String ChildResult

/-- `result.messages?.slice(-1)[0]?.content || "Task completed"`: the
content of the child's last message, with the JS `||` fallback when the
history is empty or the last content is the empty string. -/
def childSummary (res : ChildResult) : String :=
  match res.messages.getLast? with
  | none => "Task completed"
  | some c => if c = "" then "Task completed" else c

/-- The dispatch ("task") tool returned by the object-argument
`createTaskTool` of `src/subAgent.ts` (the variant `graph.ts` installs),
as a function of the pre-created agent registry (`agentsMap`), the
parent-state snapshot and the call arguments.  An unregistered
`subagent_type` returns a plain error string listing the registered
names.  Otherwise the registered agent is invoked on the parent state
with its message history replaced by the single user message
`description`; a successful run returns a `Command` updating `files` to
`result.files || {}` and appending exactly one tool message carrying the
child's last content; a thrown error is caught and converted into a
`Command` carrying only a descriptive tool message (the tool never
re-raises). -/
def taskTool (agentsMap : List (String × SubAgentFn))
    (parent : AgentState) (description subagent_type callId : String) :
    ToolResult :=
  match jsGet agentsMap subagent_type with
  | none =>
    .msg ("Error: Agent '" ++ subagent_type ++
      "' not found. Available agents: " ++
      String.intercalate ", " (agentsMap.map (fun kv => kv.1)))
  | some reactAgent =>
    match reactAgent { parent with messages := [userMessage description] }
      with
    | .ok result =>
      .update
        { files := some (result.files.getD []),
          messages := [toolMessage (childSummary result) callId] }
    | .error e =>
      .update
        { messages := [toolMessage
            ("Error executing task '" ++ description ++ "' with agent '" ++
              subagent_type ++ "': " ++ e) callId] }

/-- The runtime's application of a returned `Command` update through the
per-field reducers: messages are appended, `todos` and `files` go through
`todoReducer` and `fileReducer`. -/
def applyUpdate (s : AgentState) (u : CommandUpdate) : AgentState :=
  { messages := s.messages ++ u.messages,
    todos := todoReducer (some s.todos) u.todos,
    files := fileReducer (some s.files) u.files }

/-- Runtime application of a tool result: a plain string result carries
no state delta; a `Command` update is folded through the reducers. -/
def applyResult (s : AgentState) : ToolResult → AgentState
  | .msg _ => s
  | .update u => applyUpdate s u

theorem jsGet_append (k : String) (a b : Files) :
    jsGet (a ++ b) k = ((jsGet a k).orElse (fun _ => jsGet b k)) := by
  induction a with
  | nil => rfl
  | cons hd tl ih =>
    by_cases h : hd.1 = k
    · simp [jsGet, h]
    · simpa [jsGet, h] using ih

theorem jsGet_map_override (k : String) (a : Files)
    (f : String → String → String) :
    jsGet (a.map (fun kv => (kv.1, f kv.1 kv.2))) k =
      (jsGet a k).map (f k) := by
  induction a with
  | nil => rfl
  | cons hd tl ih =>
    by_cases h : hd.1 = k
    · simp [jsGet, h]
    · simpa [jsGet, h] using ih

theorem jsGet_filter_of_not_mem (k : String) (a b : Files)
    (h : jsGet a k = none) :
    jsGet (b.filter (fun kv => (jsGet a kv.1).isNone)) k = jsGet b k := by
  induction b with
  | nil => rfl
  | cons hd tl ih =>
    by_cases hk : hd.1 = k
    · subst hk
      simp [List.filter, h, jsGet]
    · by_cases hdrop : (jsGet a hd.1).isNone
      · simp only [List.filter_cons, hdrop, if_pos]
        simpa [jsGet, hk] using ih
      · simp only [List.filter_cons, hdrop, if_neg]
        simpa [jsGet, hk] using ih

theorem jsGet_spread (a b : Files) (k : String) :
    jsGet (spread a b) k = ((jsGet b k).orElse (fun _ => jsGet a k)) := by
  unfold spread
  rw [jsGet_append]
  rw [jsGet_map_override k a (fun key v => (jsGet b key).getD v)]
  cases ha : jsGet a k with
  | none =>
    rw [jsGet_filter_of_not_mem k a b ha]
    cases jsGet b k <;> rfl
  | some v =>
    cases hb : jsGet b k <;> rfl

/-- **C3.** The files reducer: for non-null maps `a`, `b` the merge is the
key-wise union with `b`'s binding winning on shared keys (stated
extensionally through the access function `jsGet`);
`fileReducer (some a) none = a`; `fileReducer none (some b) = b`;
`fileReducer none none` is the empty map. -/
theorem fileReducer_spec :
    (∀ (a b : Files) (k : String),
        jsGet (fileReducer (some a) (some b)) k =
          ((jsGet b k).orElse (fun _ => jsGet a k))) ∧
    (∀ a : Files, fileReducer (some a) none = a) ∧
    (∀ b : Files, fileReducer none (some b) = b) ∧
    fileReducer none none = ([] : Files) := by
  refine ⟨?_, ?_, ?_, rfl⟩
  · intro a b k
    exact jsGet_spread a b k
  · intro a; rfl
  · intro b; rfl

theorem jsTrim_empty_of_all_whitespace (content : String)
    (hws : ∀ ch ∈ content.data, isJsWhitespace ch) :
    jsTrim content = "" := by
  unfold jsTrim
  rw [List.dropWhile_eq_nil_iff.mpr hws]
  rfl

/-- **C9.** A stored file whose content is non-empty but consists only of
whitespace characters makes `read_file` return the
"File exists but has empty contents" sentinel (for every offset and
limit): the sentinel is triggered by trim-emptiness, not only by the
empty string. -/
theorem readFile_whitespace_sentinel (files : Files) (p content : String)
    (offset limit : Nat) (hf : jsGet files p = some content)
    (_hne : content ≠ "")
    (hws : ∀ ch ∈ content.data, isJsWhitespace ch) :
    readFile files p offset limit =
      "System reminder: File exists but has empty contents" := by
  have htrim := jsTrim_empty_of_all_whitespace content hws
  simp [readFile, hf, htrim]

/-- Witness for `readFile_whitespace_sentinel` at the concrete store
`{"/w": "\t "}`. -/
theorem readFile_whitespace_sentinel_witness :
    readFile [("/w", "\t ")] "/w" 0 5 =
      "System reminder: File exists but has empty contents" :=
  readFile_whitespace_sentinel [("/w", "\t ")] "/w" "\t " 0 5 rfl
    (by decide) (by decide)

/-- **C4 (counterexample).** The claim as stated fails on whitespace-only
content: `{"/a": " "}` holds a file with exactly 1 line and `0 < 1`, yet
`read_file` returns the empty-contents sentinel instead of the single
rendered line `"     1\t "`. -/
theorem readFile_window_counterexample :
    jsGet [("/a", " ")] "/a" = some " " ∧
    (jsSplitLines " ").length = 1 ∧
    readFile [("/a", " ")] "/a" 0 2000 =
      "System reminder: File exists but has empty contents" ∧
    readFile [("/a", " ")] "/a" 0 2000 ≠
      String.intercalate "\n" [renderLine 0 " "] := by
  refine ⟨rfl, by decide, by decide, by decide⟩

/-- **C4 (amended).** For every stored file whose content does not trim to
the empty string, with `L` lines (content split on newlines): for
`offset < L`, `read_file` returns exactly `min limit (L - offset)` lines,
the `j`-th being the 1-based line number `offset + j + 1` right-justified
by `padStart(6)`, a tab, and the line content truncated to 2000
characters; for `offset ≥ L` it returns the line-offset range error. -/
theorem readFile_window (files : Files) (p content : String)
    (offset limit : Nat) (hf : jsGet files p = some content)
    (hblank : jsTrim content ≠ "") :
    (offset < (jsSplitLines content).length →
      readFile files p offset limit =
        String.intercalate "\n"
          (renderWindow (jsSplitLines content) offset
            (min (offset + limit) (jsSplitLines content).length)) ∧
      (renderWindow (jsSplitLines content) offset
          (min (offset + limit) (jsSplitLines content).length)).length =
        min limit ((jsSplitLines content).length - offset) ∧
      (∀ j, j < min limit ((jsSplitLines content).length - offset) →
        (renderWindow (jsSplitLines content) offset
            (min (offset + limit) (jsSplitLines content).length))[j]? =
          some (padStart (toString (offset + j + 1)) 6 ++ "\t" ++
            truncateLine ((jsSplitLines content).getD (offset + j) "")))) ∧
    ((jsSplitLines content).length ≤ offset →
      readFile files p offset limit =
        "Error: Line offset " ++ toString offset ++
          " exceeds file length (" ++
          toString (jsSplitLines content).length ++ " lines)") := by
  have hne : content ≠ "" := by
    intro h
    exact hblank (by rw [h]; rfl)
  constructor
  · intro hlt
    refine ⟨?_, ?_, ?_⟩
    · simp [readFile, hf, hne, hblank, Nat.not_le.mpr hlt]
    · simp only [renderWindow, List.length_map, List.length_range']
      omega
    · intro j hj
      have hjn : j < min (offset + limit)
          (jsSplitLines content).length - offset := by omega
      rw [renderWindow, List.getElem?_map,
        List.getElem?_range' offset 1 hjn]
      simp [renderLine, Nat.one_mul]
  · intro hge
    simp [readFile, hf, hne, hblank, hge]

/-- Witness for `readFile_window` at the concrete store
`{"/a": "l1\nl2\nl3"}`: reading one line from offset 1 yields the rendered
second line, and offset 5 is out of range. -/
theorem readFile_window_witness :
    readFile [("/a", "l1\nl2\nl3")] "/a" 1 1 = "     2\tl2" ∧
    readFile [("/a", "l1\nl2\nl3")] "/a" 5 2 =
      "Error: Line offset 5 exceeds file length (3 lines)" := by
  constructor
  · have h := ((readFile_window [("/a", "l1\nl2\nl3")] "/a" "l1\nl2\nl3"
      1 1 rfl (by decide)).1 (by decide)).1
    rw [h]; decide
  · have h := (readFile_window [("/a", "l1\nl2\nl3")] "/a" "l1\nl2\nl3"
      5 2 rfl (by decide)).2 (by decide)
    rw [h]; decide

theorem jsGet_setKey_self (f : Files) (p c : String) :
    jsGet (setKey f p c) p = some c := by
  unfold setKey
  by_cases h : (jsGet f p).isNone
  · rw [if_pos h, jsGet_append]
    cases hf : jsGet f p with
    | none => simp [jsGet]
    | some v => rw [hf] at h; simp at h
  · rw [if_neg h,
      jsGet_map_override p f (fun k v => if k = p then c else v)]
    cases hf : jsGet f p with
    | none => rw [hf] at h; simp at h
    | some v => simp

theorem jsGet_setKey_ne (f : Files) (p c k : String) (hk : k ≠ p) :
    jsGet (setKey f p c) k = jsGet f k := by
  unfold setKey
  by_cases h : (jsGet f p).isNone
  · rw [if_pos h, jsGet_append]
    cases hf : jsGet f k with
    | none => simp [jsGet, hf, Ne.symm hk]
    | some v => rfl
  · rw [if_neg h,
      jsGet_map_override k f (fun key v => if key = p then c else v)]
    cases hf : jsGet f k with
    | none => rfl
    | some v => simp [hk]

/-- **C7 (counterexample).** The claim as stated fails: on the store
`{"/b": "y"}`, `write_file("/a", "x")` emits a `files` delta that is the
whole updated map and hence still binds the unrelated key `"/b"` — it
does not contain only the written key. -/
theorem writeFile_delta_counterexample :
    writeFile [("/b", "y")] "/a" "x" "t1" =
      .update { files := some [("/b", "y"), ("/a", "x")], todos := none,
                messages := [toolMessage "Updated file /a" "t1"] } ∧
    jsGet [("/b", "y"), ("/a", "x")] "/b" = some "y" ∧
    [("/b", "y"), ("/a", "x")] ≠ [("/a", "x")] := by
  exact ⟨rfl, rfl, by decide⟩

/-- **C7 (amended).** `write_file` unconditionally sets
`files[path] = content` (create or overwrite).  The emitted `files` delta
is the entire current map updated at that key — not only that key —
plus one confirmation message and no `todos` field; merging the delta
over the current files through the files reducer changes only that path
(pointwise: the written path maps to the new content, every other key is
unchanged, and the merge equals the emitted map). -/
theorem writeFile_spec (files : Files) (p c callId : String) :
    writeFile files p c callId =
      .update { files := some (setKey files p c), todos := none,
                messages := [toolMessage ("Updated file " ++ p) callId] } ∧
    jsGet (setKey files p c) p = some c ∧
    (∀ k, k ≠ p → jsGet (setKey files p c) k = jsGet files k) ∧
    (∀ k, jsGet (fileReducer (some files) (some (setKey files p c))) k =
      jsGet (setKey files p c) k) := by
  refine ⟨rfl, jsGet_setKey_self files p c,
    fun k hk => jsGet_setKey_ne files p c k hk, fun k => ?_⟩
  show jsGet (spread files (setKey files p c)) k = _
  rw [jsGet_spread]
  by_cases hk : k = p
  · subst hk
    rw [jsGet_setKey_self]
    rfl
  · rw [jsGet_setKey_ne files p c k hk]
    cases jsGet files k <;> rfl

/-- Witness for `writeFile_spec` on the concrete store `{"/b": "y"}`. -/
theorem writeFile_spec_witness :
    writeFile [("/b", "y")] "/a" "x" "t0" =
      .update { files := some [("/b", "y"), ("/a", "x")], todos := none,
                messages := [toolMessage "Updated file /a" "t0"] } ∧
    jsGet (setKey [("/b", "y")] "/a" "x") "/b" =
      jsGet [("/b", "y")] "/b" := by
  have h := writeFile_spec [("/b", "y")] "/a" "x" "t0"
  exact ⟨by rw [h.1]; rfl, h.2.2.1 "/b" (by decide)⟩

/-- **C5 (code bug).** `edit_file` documents itself as matching the
Python (literal `str.replace`) behaviour and the spec states literal
replacement, but the TypeScript code passes `new_string` as the
replacement argument of `String.prototype.replace`, where `$` sequences
are substitution patterns: replacing the single occurrence of `"x"` in
`"x"` by the literal `"$$"` with `replace_all = true` yields content
`"$"`, not `"$$"`. -/
theorem editFile_dollar_substitution :
    editFile [("/a", "x")] "/a" "x" "$$" true "t1" =
      .update { files := some [("/a", "$")], todos := none,
                messages := [toolMessage "Updated file /a" "t1"] } ∧
    ("$" : String) ≠ "$$" := by
  constructor
  · simp [editFile, jsIncludes, findSub, countOccs, jsReplaceAll,
      replAllGo, getSubstitution, setKey, jsGet, toolMessage,
      List.isPrefixOf]
  · decide

theorem countOccs_empty_pattern (content : String) :
    countOccs content "" = content.data.length + 1 := by
  simp [countOccs]

theorem jsIncludes_empty_pattern (content : String) :
    jsIncludes content "" = true := by
  unfold jsIncludes
  cases h : content.data with
  | nil => simp [findSub]
  | cons a l => simp [findSub, List.isPrefixOf]

/-- **C10.** On an existing file with non-empty content, `edit_file` with
`old_string = ""` and `replace_all = false` always returns the
ambiguous-occurrences error (the escaped empty pattern matches at every
position, so the count is `length + 1 ≥ 2`) and performs no state
update. -/
theorem editFile_empty_old_ambiguous (files : Files)
    (p content new callId : String)
    (hf : jsGet files p = some content) (hne : content ≠ "") :
    editFile files p "" new false callId =
      .msg ("Error: String '' appears " ++
        toString (content.data.length + 1) ++
        " times in file. Use replace_all=True to replace all instances, " ++
        "or provide a more specific string with surrounding context.") := by
  have hdata : content.data ≠ [] := fun h => hne (String.ext h)
  have hlen : content.data.length ≠ 0 :=
    fun h0 => hdata (List.length_eq_zero.mp h0)
  have hgt : countOccs content "" > 1 := by
    rw [countOccs_empty_pattern]
    omega
  have hlen2 : content.length ≠ 0 := hlen
  simp [editFile, hf, jsIncludes_empty_pattern, hgt,
    countOccs_empty_pattern, hlen2]

/-- Witness for `editFile_empty_old_ambiguous` on the concrete store
`{"/a": "ab"}`. -/
theorem editFile_empty_old_ambiguous_witness :
    editFile [("/a", "ab")] "/a" "" "X" false "t2" =
      .msg ("Error: String '' appears 3 times in file. " ++
        "Use replace_all=True to replace all instances, " ++
        "or provide a more specific string with surrounding context.") := by
  have h := editFile_empty_old_ambiguous [("/a", "ab")] "/a" "ab" "X" "t2"
    rfl (by decide)
  rw [h]
  decide

theorem findSub_isSome_of_countOccsGo_pos (pat : List Char)
    (s : List Char) (h : 0 < countOccsGo pat s) :
    (findSub pat s).isSome := by
  induction s with
  | nil => simp [countOccsGo] at h
  | cons c rest ih =>
    by_cases hp : pat.isPrefixOf (c :: rest)
    · simp [findSub, hp]
    · rw [countOccsGo, if_neg hp] at h
      rw [findSub, if_neg hp]
      simpa using ih h

theorem findSub_decomp (pat : List Char) (s : List Char) (i : Nat)
    (h : findSub pat s = some i) :
    ∃ pre post, s = pre ++ pat ++ post ∧ pre.length = i := by
  induction s generalizing i with
  | nil =>
    unfold findSub at h
    by_cases hp : pat = []
    · subst hp
      rw [if_pos rfl] at h
      injection h with h0
      exact ⟨[], [], rfl, h0⟩
    · rw [if_neg hp] at h
      exact absurd h (by simp)
  | cons c rest ih =>
    rw [findSub] at h
    by_cases hp : pat.isPrefixOf (c :: rest)
    · rw [if_pos hp] at h
      injection h with h0
      obtain ⟨t, ht⟩ := List.isPrefixOf_iff_prefix.mp hp
      exact ⟨[], t, by simp [← ht], h0⟩
    · rw [if_neg hp] at h
      cases hf : findSub pat rest with
      | none => rw [hf] at h; simp at h
      | some j =>
        rw [hf] at h
        simp only [Option.map_some'] at h
        injection h with h1
        subst h1
        obtain ⟨pre, post, hs, hl⟩ := ih j hf
        exact ⟨c :: pre, post, by simp [hs], by simp [hl]⟩

theorem getSubstitution_no_dollar (matched before after rep : List Char)
    (h : ∀ ch ∈ rep, ch ≠ '$') :
    getSubstitution matched before after rep = rep := by
  induction rep with
  | nil => rfl
  | cons c rest ih =>
    have hc : c ≠ '$' := h c (by simp)
    have hstep : getSubstitution matched before after (c :: rest) =
        c :: getSubstitution matched before after rest := by
      rw [getSubstitution.eq_def]
      simp [hc]
    rw [hstep, ih (fun ch hch => h ch (by simp [hch]))]

theorem jsIncludes_of_countOccs_pos (content old : String)
    (h : 0 < countOccs content old) : jsIncludes content old = true := by
  unfold jsIncludes
  unfold countOccs at h
  by_cases hp : old.data = []
  · rw [hp]
    cases hc : content.data with
    | nil => simp [findSub]
    | cons a l => simp [findSub, List.isPrefixOf]
  · rw [if_neg hp] at h
    simpa using findSub_isSome_of_countOccsGo_pos old.data content.data h

theorem jsReplace_split (content old repl : String) (i : Nat)
    (hf : findSub old.data content.data = some i)
    (hnd : ∀ ch ∈ repl.data, ch ≠ '$') :
    jsReplace content old repl =
      ⟨content.data.take i ++ repl.data ++
        content.data.drop (i + old.data.length)⟩ := by
  unfold jsReplace
  rw [hf]
  simp [getSubstitution_no_dollar _ _ _ _ hnd]

/-- **C6.** Without `replace_all`: an `old_string` whose occurrence count
in the content (leftmost non-overlapping, as the spec prescribes) exceeds
1 makes `edit_file` return the ambiguity error — a plain message, hence
no state update; an `old_string` occurring exactly once is replaced at
its occurrence by `new_string` (stated for a `$`-free `new_string`, which
JS replacement text treats literally), with only that path updated in the
emitted map. -/
theorem editFile_unique_occurrence (files : Files)
    (p content old new callId : String)
    (hf : jsGet files p = some content) :
    (countOccs content old > 1 →
      editFile files p old new false callId =
        .msg ("Error: String '" ++ old ++ "' appears " ++
          toString (countOccs content old) ++
          " times in file. Use replace_all=True to replace all instances, " ++
          "or provide a more specific string with surrounding context.")) ∧
    (countOccs content old = 1 → (∀ ch ∈ new.data, ch ≠ '$') →
      ∃ pre post : List Char,
        content.data = pre ++ old.data ++ post ∧
        editFile files p old new false callId =
          .update { files := some (setKey files p
                      ⟨pre ++ new.data ++ post⟩), todos := none,
                    messages :=
                      [toolMessage ("Updated file " ++ p) callId] }) := by
  constructor
  · intro hgt
    have hinc := jsIncludes_of_countOccs_pos content old (by omega)
    simp [editFile, hf, hinc, hgt]
  · intro hone hnd
    have hinc := jsIncludes_of_countOccs_pos content old (by omega)
    have hsome : (findSub old.data content.data).isSome := by
      simpa [jsIncludes] using hinc
    obtain ⟨i, hi⟩ := Option.isSome_iff_exists.mp hsome
    obtain ⟨pre, post, hs, hl⟩ := findSub_decomp old.data content.data i hi
    refine ⟨pre, post, hs, ?_⟩
    have hrepl : jsReplace content old new =
        ⟨pre ++ new.data ++ post⟩ := by
      rw [jsReplace_split content old new i hi hnd]
      subst hl
      rw [hs]
      rw [List.append_assoc pre old.data post]
      rw [List.take_left, ← List.length_append pre old.data]
      rw [← List.append_assoc pre old.data post, List.drop_left]
    simp [editFile, hf, hinc, hone, hrepl]

/-- Witness for `editFile_unique_occurrence` on concrete stores:
editing `"cat"` in `"cat cat"` without `replace_all` is ambiguous
(2 occurrences, no update); editing the unique `"x"` in `"xy"` replaces
it. -/
theorem editFile_unique_occurrence_witness :
    editFile [("/a", "cat cat")] "/a" "cat" "dog" false "t3" =
      .msg ("Error: String 'cat' appears 2 times in file. " ++
        "Use replace_all=True to replace all instances, " ++
        "or provide a more specific string with surrounding context.") ∧
    editFile [("/a", "xy")] "/a" "x" "AB" false "t4" =
      .update { files := some [("/a", "ABy")], todos := none,
                messages := [toolMessage "Updated file /a" "t4"] } := by
  have hc2 : countOccs "cat cat" "cat" = 2 := by
    simp [countOccs, countOccsGo, List.isPrefixOf]
  have hc1 : countOccs "xy" "x" = 1 := by
    simp [countOccs, countOccsGo, List.isPrefixOf]
  constructor
  · have h := (editFile_unique_occurrence [("/a", "cat cat")] "/a"
      "cat cat" "cat" "dog" "t3" rfl).1 (by rw [hc2]; omega)
    rw [h, hc2]
    decide
  · obtain ⟨pre, post, hs, he⟩ := (editFile_unique_occurrence
      [("/a", "xy")] "/a" "xy" "x" "AB" "t4" rfl).2 hc1 (by decide)
    have hs' : ['x', 'y'] = pre ++ ['x'] ++ post := hs
    have hps : pre = [] ∧ post = ['y'] := by
      rcases pre with _ | ⟨a, pre2⟩
      · simp only [List.nil_append, List.cons_append] at hs'
        refine ⟨rfl, ?_⟩
        rw [List.cons.injEq] at hs'
        exact hs'.2.symm
      · rcases pre2 with _ | ⟨b, pre3⟩ <;> simp_all
    rw [he, hps.1, hps.2]
    rfl

/-- **C1.** Successful dispatch to a registered sub-agent: the returned
`Command` updates `files` to the child's final files map (`result.files
|| {}`), carries no `todos` field, and contains exactly one tool-result
message whose content is the child's last produced content (with the
"Task completed" fallback).  Applying it through the reducers leaves the
parent's `todos` untouched, merges only the child's files into the
parent's via the files reducer, and appends exactly one message to the
parent's log. -/
theorem taskTool_success (agentsMap : List (String × SubAgentFn))
    (parent : AgentState) (description name callId : String)
    (agent : SubAgentFn) (res : ChildResult)
    (hreg : jsGet agentsMap name = some agent)
    (hrun : agent { parent with messages := [userMessage description] } =
      .ok res) :
    taskTool agentsMap parent description name callId =
      .update { files := some (res.files.getD []), todos := none,
                messages := [toolMessage (childSummary res) callId] } ∧
    applyResult parent (taskTool agentsMap parent description name callId)
      = { messages :=
            parent.messages ++ [toolMessage (childSummary res) callId],
          todos := parent.todos,
          files := fileReducer (some parent.files)
            (some (res.files.getD [])) } ∧
    (applyResult parent
        (taskTool agentsMap parent description name callId)).messages.length
      = parent.messages.length + 1 := by
  have h : taskTool agentsMap parent description name callId =
      .update { files := some (res.files.getD []), todos := none,
                messages := [toolMessage (childSummary res) callId] } := by
    simp only [taskTool, hreg, hrun]
  refine ⟨h, by rw [h]; rfl, by rw [h]; simp [applyResult, applyUpdate]⟩

/-- Witness for `taskTool_success`: one registered agent called
"researcher" whose run ends with message "found it" and files
`{"/r": "data"}`; dispatching from a parent with one message, one todo
and files `{"/a": "1"}` leaves the todo, merges the files and appends the
single tool message. -/
theorem taskTool_success_witness :
    applyResult
        ⟨[userMessage "hi"], [⟨"plan", TodoStatus.pending⟩], [("/a", "1")]⟩
        (taskTool
          [("researcher", fun _ =>
            Except.ok ⟨["found it"], some [("/r", "data")], none⟩)]
          ⟨[userMessage "hi"], [⟨"plan", TodoStatus.pending⟩],
            [("/a", "1")]⟩
          "look" "researcher" "c1") =
      ⟨[userMessage "hi", toolMessage "found it" "c1"],
        [⟨"plan", TodoStatus.pending⟩], [("/a", "1"), ("/r", "data")]⟩ := by
  have h := taskTool_success
    [("researcher", fun _ =>
      Except.ok ⟨["found it"], some [("/r", "data")], none⟩)]
    ⟨[userMessage "hi"], [⟨"plan", TodoStatus.pending⟩], [("/a", "1")]⟩
    "look" "researcher" "c1"
    (fun _ => Except.ok ⟨["found it"], some [("/r", "data")], none⟩)
    ⟨["found it"], some [("/r", "data")], none⟩ rfl rfl
  rw [h.2.1]
  rfl

/-- **C2.** Any exception thrown during the nested sub-agent run is
caught: dispatch returns (never re-raises) a `Command` whose only content
is one descriptive tool-result message — no `files` and no `todos`
field — so applying it leaves the parent's `files` and `todos` unchanged
and only appends that message. -/
theorem taskTool_error (agentsMap : List (String × SubAgentFn))
    (parent : AgentState) (description name callId e : String)
    (agent : SubAgentFn)
    (hreg : jsGet agentsMap name = some agent)
    (hrun : agent { parent with messages := [userMessage description] } =
      .error e) :
    taskTool agentsMap parent description name callId =
      .update { files := none, todos := none,
                messages := [toolMessage
                  ("Error executing task '" ++ description ++
                    "' with agent '" ++ name ++ "': " ++ e) callId] } ∧
    applyResult parent (taskTool agentsMap parent description name callId)
      = { messages := parent.messages ++ [toolMessage
            ("Error executing task '" ++ description ++
              "' with agent '" ++ name ++ "': " ++ e) callId],
          todos := parent.todos,
          files := parent.files } := by
  have h : taskTool agentsMap parent description name callId =
      .update { files := none, todos := none,
                messages := [toolMessage
                  ("Error executing task '" ++ description ++
                    "' with agent '" ++ name ++ "': " ++ e) callId] } := by
    simp only [taskTool, hreg, hrun]
  exact ⟨h, by rw [h]; rfl⟩

/-- Witness for `taskTool_error`: a registered agent that throws
"boom"; the parent's files and todos survive unchanged and the single
error message is appended. -/
theorem taskTool_error_witness :
    applyResult
        ⟨[userMessage "hi"], [⟨"plan", TodoStatus.pending⟩], [("/a", "1")]⟩
        (taskTool [("researcher", fun _ => Except.error "boom")]
          ⟨[userMessage "hi"], [⟨"plan", TodoStatus.pending⟩],
            [("/a", "1")]⟩
          "look" "researcher" "c2") =
      ⟨[userMessage "hi", toolMessage
          "Error executing task 'look' with agent 'researcher': boom" "c2"],
        [⟨"plan", TodoStatus.pending⟩], [("/a", "1")]⟩ := by
  have h := taskTool_error [("researcher", fun _ => Except.error "boom")]
    ⟨[userMessage "hi"], [⟨"plan", TodoStatus.pending⟩], [("/a", "1")]⟩
    "look" "researcher" "c2" "boom"
    (fun _ => Except.error "boom") rfl rfl
  rw [h.2]
  rfl

/-- **C8.** Dispatch with an unregistered name returns (does not raise) a
plain not-found message listing the registered agent names, and carries
no state update: applying the result leaves the parent state (messages,
todos, files) identical. -/
theorem taskTool_unknown_agent (agentsMap : List (String × SubAgentFn))
    (parent : AgentState) (description name callId : String)
    (hnone : jsGet agentsMap name = none) :
    taskTool agentsMap parent description name callId =
      .msg ("Error: Agent '" ++ name ++
        "' not found. Available agents: " ++
        String.intercalate ", " (agentsMap.map (fun kv => kv.1))) ∧
    applyResult parent (taskTool agentsMap parent description name callId)
      = parent := by
  have h : taskTool agentsMap parent description name callId =
      .msg ("Error: Agent '" ++ name ++
        "' not found. Available agents: " ++
        String.intercalate ", " (agentsMap.map (fun kv => kv.1))) := by
    simp only [taskTool, hnone]
  exact ⟨h, by rw [h]; rfl⟩

/-- Witness for `taskTool_unknown_agent`: dispatching to "unknown" in a
registry holding "researcher" and "critic" returns the not-found message
listing both names and leaves the parent state untouched. -/
theorem taskTool_unknown_agent_witness :
    taskTool
        [("researcher", fun _ => Except.error "x"),
          ("critic", fun _ => Except.error "x")]
        ⟨[userMessage "hi"], [⟨"plan", TodoStatus.pending⟩], [("/a", "1")]⟩
        "do X" "unknown" "c3" =
      .msg ("Error: Agent 'unknown' not found. " ++
        "Available agents: researcher, critic") ∧
    applyResult
        ⟨[userMessage "hi"], [⟨"plan", TodoStatus.pending⟩], [("/a", "1")]⟩
        (taskTool
          [("researcher", fun _ => Except.error "x"),
            ("critic", fun _ => Except.error "x")]
          ⟨[userMessage "hi"], [⟨"plan", TodoStatus.pending⟩],
            [("/a", "1")]⟩
          "do X" "unknown" "c3") =
      ⟨[userMessage "hi"], [⟨"plan", TodoStatus.pending⟩],
        [("/a", "1")]⟩ := by
  have h := taskTool_unknown_agent
    [("researcher", fun _ => Except.error "x"),
      ("critic", fun _ => Except.error "x")]
    ⟨[userMessage "hi"], [⟨"plan", TodoStatus.pending⟩], [("/a", "1")]⟩
    "do X" "unknown" "c3" rfl
  exact ⟨by rw [h.1]; rfl, h.2⟩

end DeepAgents
